import Mathlib

/-!
Shallow embedding of `src/misc/rom_stats.py` (the MemoryRegionUsageSummarizer).

The script is a single pass: read lines, split each on whitespace, unpack as a
6-token `(idx, name, size, vma, lma, t)` or 5-token `(idx, name, size, vma, t)`
layout (the latter setting `lma = vma`), keep the record when `t` is exactly
"TEXT", "DATA" or "BSS" (parsing `size`, `vma`, `lma` with Python's
`int(_, base=16)` at that point, an uncaught `ValueError` aborting the run),
sort the kept records by `vma` (Python's stable sort), then for each record and
each configured region, in order, add the record's size to the region's `used`
and print a report line whenever `vma` or `lma` lies in the region's half-open
interval; finally print one total line per region.

Modelling notes.
* Python integers are unbounded, so addresses and sizes are `Int`.
* Python's `int(s, base=16)` accepts an optional sign, an optional `0x`/`0X`
  marker (optionally followed by one underscore), and hex digits separated by
  single underscores; `pyIntHex` reproduces this (token strings coming from
  `str.split()` never carry surrounding whitespace, so stripping is omitted).
  In particular a leading `-` yields a negative value.
* The printed report is modelled structurally: a `ReportLine` carries every
  datum the `print` interpolates (region name, kind, section name, size,
  region length); the rendered bytes are a function of these fields, so
  equality of `Output` values is equality of the printed text.
* The script formats `size/1024` and `100*size/rel` with Python's `:.1f`,
  which rounds the IEEE double to one decimal, ties to even.  `rnd10` performs
  that rounding exactly on the underlying rational `n/d`; at every value
  reasoned about below the rational is either a dyadic number represented
  exactly by the double (e.g. 0.25) or lies far from a rounding tie, so the
  double and the exact rational round identically.
-/

/-- Numeric value of a hex digit character (0 for non-digits). -/
def hexVal (c : Char) : Nat :=
  if 48 ≤ c.toNat ∧ c.toNat ≤ 57 then c.toNat - 48
  else if 97 ≤ c.toNat ∧ c.toNat ≤ 102 then c.toNat - 87
  else if 65 ≤ c.toNat ∧ c.toNat ≤ 70 then c.toNat - 55
  else 0

/-- Whether a character is a hexadecimal digit. -/
def isHexDig (c : Char) : Bool :=
  (48 ≤ c.toNat && c.toNat ≤ 57) || (97 ≤ c.toNat && c.toNat ≤ 102)
    || (65 ≤ c.toNat && c.toNat ≤ 70)

/-- Continuation of a hex-digit run after its first digit: further digits, with
single underscores allowed between digits (Python's underscore rule). -/
def hexTail : List Char → Nat → Option Nat
  | [], acc => some acc
  | '_' :: c :: cs, acc => if isHexDig c then hexTail cs (16 * acc + hexVal c) else none
  | ['_'], _ => none
  | c :: cs, acc => if isHexDig c then hexTail cs (16 * acc + hexVal c) else none

/-- Nonempty run of hex digits (with Python's underscore rule), most
significant first. -/
def hexDigits : List Char → Option Nat
  | [] => none
  | c :: cs => if isHexDig c then hexTail cs (hexVal c) else none

/-- After a `0x`/`0X` marker Python allows one underscore before the digits. -/
def hexAfter0x : List Char → Option Nat
  | '_' :: cs => hexDigits cs
  | cs => hexDigits cs

/-- Unsigned part of Python's base-16 integer grammar: optional `0x`/`0X`
marker, then digits. -/
def hexUnsigned : List Char → Option Nat
  | '0' :: 'x' :: cs => hexAfter0x cs
  | '0' :: 'X' :: cs => hexAfter0x cs
  | cs => hexDigits cs

/-- Python's `int(s, base=16)` on a whitespace-free token: optional sign, then
the unsigned hex grammar.  `none` models the `ValueError` raised on a
malformed token. -/
def pyIntHex (s : String) : Option Int :=
  match s.data with
  | '-' :: cs => (hexUnsigned cs).map (fun n => -(n : Int))
  | '+' :: cs => (hexUnsigned cs).map (fun n => (n : Int))
  | cs => (hexUnsigned cs).map (fun n => (n : Int))

/-- Accumulator-style tokenizer: `acc` holds the current token's characters in
reverse; a whitespace character closes the token, anything else extends it. -/
def splitWSAux : List Char → List Char → List String
  | [], [] => []
  | [], acc => [⟨acc.reverse⟩]
  | c :: cs, acc =>
    if c.isWhitespace then
      match acc with
      | [] => splitWSAux cs []
      | _ => (⟨acc.reverse⟩ : String) :: splitWSAux cs []
    else splitWSAux cs (c :: acc)

/-- Python's `str.split()` with no argument: split on runs of whitespace,
discarding empty pieces (hence also leading/trailing whitespace, which is why
the script's `line.strip()` is immaterial to the token list). -/
def splitWS (s : String) : List String :=
  splitWSAux s.data []

/-- One retained section record, the tuple
`(name, int(size,16), int(vma,16), int(lma,16), t)` built by the parse loop. -/
structure SectionRec where
  name : String
  size : Int
  vma : Int
  lma : Int
  t : String
deriving DecidableEq

/-- The kind filter `t == "TEXT" or t == "DATA" or t == "BSS"`. -/
def isKept (t : String) : Bool :=
  t == "TEXT" || t == "DATA" || t == "BSS"

/-- Body of the parse loop once tokens are unpacked: the kind test guards the
three `int(_, base=16)` conversions, which are evaluated left to right (size,
vma, lma); the first failing token aborts the run (`Except.error` carries it).
A non-kept kind skips the line before any numeric conversion. -/
def mkSec (name size vma lma t : String) : Except String (Option SectionRec) :=
  if isKept t then
    match pyIntHex size with
    | none => .error size
    | some sz =>
      match pyIntHex vma with
      | none => .error vma
      | some v =>
        match pyIntHex lma with
        | none => .error lma
        | some l => .ok (some ⟨name, sz, v, l, t⟩)
  else .ok none

/-- Unpacking of one line's token list: exactly 6 tokens
`(idx, name, size, vma, lma, t)`, else exactly 5 tokens with `lma = vma`, else
the line is skipped (`continue`).  The `idx` token is never inspected. -/
def parseTokens : List String → Except String (Option SectionRec)
  | [_idx, name, size, vma, lma, t] => mkSec name size vma lma t
  | [_idx, name, size, vma, t] => mkSec name size vma vma t
  | _ => .ok none

/-- The whole parse loop over the input's token lists, stopping at the first
uncaught `ValueError` (so no later line is read and no report is produced). -/
def parseAll : List (List String) → Except String (List SectionRec)
  | [] => .ok []
  | toks :: rest =>
    match parseTokens toks with
    | .error e => .error e
    | .ok none => parseAll rest
    | .ok (some r) => (parseAll rest).map (fun l => r :: l)

/-- A configured memory region (its `used` accumulator is threaded
separately as the second component of a `Region × Int` pair). -/
structure Region where
  name : String
  origin : Int
  len : Int
deriving DecidableEq

/-- The script's `KB` helper. -/
def KB (v : Int) : Int := v * 1024

/-- The FLASH region: origin 0x08000000, 256 KiB. -/
def FLASH : Region := ⟨"FLASH", 0x08000000, KB 256⟩

/-- The FLASH_RO region: immediately after FLASH, 256 KiB. -/
def FLASH_RO : Region := ⟨"FLASH_RO", 0x08000000 + KB 256, KB 256⟩

/-- The RAM region: origin 0x20000000, 96 KiB. -/
def RAM : Region := ⟨"RAM", 0x20000000, KB 96⟩

/-- The configured region list, in configuration order. -/
def regions : List Region := [FLASH, FLASH_RO, RAM]

/-- The script's `in_region`: membership in the half-open interval
`[origin, origin + len)`. -/
def in_region (r : Region) (addr : Int) : Bool :=
  decide (r.origin ≤ addr ∧ addr < r.origin + r.len)

/-- The classification test of the inner loop:
`in_region(region, vma) or in_region(region, lma)`. -/
def matchesRegion (r : Region) (s : SectionRec) : Bool :=
  in_region r s.vma || in_region r s.lma

/-- Everything one report `print` interpolates: region name, section kind,
section name, and the size and region length fed to `hsize`. -/
structure ReportLine where
  regionName : String
  kind : String
  secName : String
  size : Int
  regionLen : Int
deriving DecidableEq

/-- The report line printed for a (section, region) match. -/
def mkLine (r : Region) (s : SectionRec) : ReportLine :=
  ⟨r.name, s.t, s.name, s.size, r.len⟩

/-- The inner loop over regions for one section: each matching region's `used`
grows by the section's size and one line is printed, in region order. -/
def classifySection (s : SectionRec) : List (Region × Int) → List (Region × Int) × List ReportLine
  | [] => ([], [])
  | (r, u) :: rest =>
    let p := classifySection s rest
    if matchesRegion r s then ((r, u + s.size) :: p.1, mkLine r s :: p.2)
    else ((r, u) :: p.1, p.2)

/-- The outer loop over the (sorted) sections. -/
def classifyAll : List SectionRec → List (Region × Int) → List (Region × Int) × List ReportLine
  | [], rs => (rs, [])
  | s :: ss, rs =>
    let p := classifySection s rs
    let q := classifyAll ss p.1
    (q.1, p.2 ++ q.2)

/-- The program's observable output: the per-match report lines in print
order, then (after the blank separator) the three totals, each a
`(region name, used, region length)` triple as fed to the final `print`s.
The rendered text is a function of this value. -/
structure Output where
  lines : List ReportLine
  totals : List (String × Int × Int)
deriving DecidableEq

/-- The sort key order of `sections.sort(key=lambda x: x[2])`: comparison of
`vma` fields (a total preorder, not antisymmetric on records). -/
def vmaLE (a b : SectionRec) : Prop := a.vma ≤ b.vma

instance : DecidableRel vmaLE := fun a b => (inferInstance : Decidable (a.vma ≤ b.vma))

instance : IsTotal SectionRec vmaLE := ⟨fun a b => Int.le_total a.vma b.vma⟩

instance : IsTrans SectionRec vmaLE := ⟨fun _ _ _ h1 h2 => Int.le_trans h1 h2⟩

/-- The script's `sections.sort(key=lambda x: x[2])`: a stable sort by `vma`.
Python's sort is stable, and all stable sorts by the same total preorder
compute the same list, so stable `insertionSort` is the exact model. -/
def sortSections (l : List SectionRec) : List SectionRec :=
  l.insertionSort vmaLE

/-- The three region accumulators, `used = 0`, at startup. -/
def initRegions : List (Region × Int) := regions.map (fun r => (r, 0))

/-- Everything after parsing: sort, classify, report. -/
def summarize (secs : List SectionRec) : Output :=
  let p := classifyAll (sortSections secs) initRegions
  ⟨p.2, p.1.map (fun ru => (ru.1.name, ru.2, ru.1.len))⟩

/-- The whole script on a list of token lists. -/
def runToks (input : List (List String)) : Except String Output :=
  (parseAll input).map summarize

/-- The whole script on raw input lines. -/
def runLines (input : List String) : Except String Output :=
  runToks (input.map splitWS)

/-- Round the rational `n / d` (with `d > 0`) to the nearest integer, ties to
even: the rounding Python's `:.1f` applies (here used on values pre-scaled by
10, so the result is the displayed number of tenths). -/
def rnd10 (n d : Int) : Int :=
  let f := n.fdiv d
  let r := n.fmod d
  if 2 * r < d then f
  else if d < 2 * r then f + 1
  else if f % 2 = 0 then f else f + 1

/-- Tenths of a percent displayed by `hsize`'s `{100*size/rel:.1f}`. -/
def pctTenths (size rel : Int) : Int := rnd10 (1000 * size) rel

/-- Tenths of a kilobyte displayed by `hsize`'s `{size/1024:7.1f}`. -/
def kTenths (size : Int) : Int := rnd10 (10 * size) 1024

/-- Bytes the classification loop adds to region `r` over a record list: the
sum of the sizes of the records matching `r`. -/
def usedFor (l : List SectionRec) (r : Region) : Int :=
  ((l.filter (fun s => matchesRegion r s)).map SectionRec.size).sum

/-- Report lines the inner loop prints for one record: one line per matching
region, in configuration order. -/
def linesFor (s : SectionRec) : List ReportLine :=
  (regions.filter (fun r => matchesRegion r s)).map (fun r => mkLine r s)

instance {α β : Type} [DecidableEq α] [DecidableEq β] : DecidableEq (Except α β) := fun a b =>
  match a, b with
  | .ok x, .ok y => decidable_of_iff (x = y) (by simp)
  | .error x, .error y => decidable_of_iff (x = y) (by simp)
  | .ok _, .error _ => isFalse (by simp)
  | .error _, .ok _ => isFalse (by simp)

example : pyIntHex "00000100" = some 256 := by decide
example : pyIntHex "20000000" = some 0x20000000 := by decide
example : pyIntHex "zzzz" = none := by decide
example : pyIntHex "-10" = some (-16) := by decide
example : pyIntHex "0x1F" = some 31 := by decide
example : pyIntHex "" = none := by decide
example : pyIntHex "0x" = none := by decide
example : splitWS "0 .data  00000100 20000000" = ["0", ".data", "00000100", "20000000"] := rfl
example : pctTenths 256 (KB 96) = 3 := by decide
example : pctTenths 256 (KB 256) = 1 := by decide
example : kTenths 256 = 2 := by decide

/-! Helper lemmas about the parser. -/

theorem isKept_iff (t : String) :
    isKept t = true ↔ (t = "TEXT" ∨ t = "DATA" ∨ t = "BSS") := by
  simp [isKept]
  tauto

theorem mkSec_not_kept (n s v l t : String) (h : isKept t = false) :
    mkSec n s v l t = .ok none := by
  simp [mkSec, h]

theorem mkSec_ok_of (n s v l t : String) (sz vv ll : Int) (hk : isKept t = true)
    (hs : pyIntHex s = some sz) (hv : pyIntHex v = some vv) (hl : pyIntHex l = some ll) :
    mkSec n s v l t = .ok (some ⟨n, sz, vv, ll, t⟩) := by
  simp [mkSec, hk, hs, hv, hl]

theorem mkSec_err_size (n s v l t : String) (hk : isKept t = true)
    (hs : pyIntHex s = none) : mkSec n s v l t = .error s := by
  simp [mkSec, hk, hs]

theorem mkSec_err_vma (n s v l t : String) (sz : Int) (hk : isKept t = true)
    (hs : pyIntHex s = some sz) (hv : pyIntHex v = none) : mkSec n s v l t = .error v := by
  simp [mkSec, hk, hs, hv]

theorem mkSec_err_lma (n s v l t : String) (sz vv : Int) (hk : isKept t = true)
    (hs : pyIntHex s = some sz) (hv : pyIntHex v = some vv) (hl : pyIntHex l = none) :
    mkSec n s v l t = .error l := by
  simp [mkSec, hk, hs, hv, hl]

theorem mkSec_ok_some (n s v l t : String) (r : SectionRec)
    (h : mkSec n s v l t = .ok (some r)) :
    isKept t = true ∧ ∃ sz vv ll, pyIntHex s = some sz ∧ pyIntHex v = some vv ∧
      pyIntHex l = some ll ∧ r = ⟨n, sz, vv, ll, t⟩ := by
  unfold mkSec at h
  split at h
  · rename_i hk
    refine ⟨hk, ?_⟩
    split at h
    · simp at h
    · rename_i sz hs
      split at h
      · simp at h
      · rename_i vv hv
        split at h
        · simp at h
        · rename_i ll hl
          simp only [Except.ok.injEq, Option.some.injEq] at h
          exact ⟨sz, vv, ll, hs, hv, hl, h.symm⟩
  · simp at h

theorem pyIntHex_nonneg (s : String) (z : Int)
    (h : pyIntHex s = some z) (hm : s.data.head? ≠ some '-') : 0 ≤ z := by
  unfold pyIntHex at h
  split at h
  · rename_i cs heq
    exact absurd (by rw [heq]; rfl) hm
  · rename_i cs heq
    cases hu : hexUnsigned cs with
    | none => rw [hu] at h; simp at h
    | some m => rw [hu] at h; simp at h; omega
  · cases hu : hexUnsigned s.data with
    | none => rw [hu] at h; simp at h
    | some m => rw [hu] at h; simp at h; omega

theorem parseTokens_six (i n s v l t : String) :
    parseTokens [i, n, s, v, l, t] = mkSec n s v l t := rfl

theorem parseTokens_five (i n s v t : String) :
    parseTokens [i, n, s, v, t] = mkSec n s v v t := rfl

theorem parseTokens_ok_some (toks : List String) (r : SectionRec)
    (h : parseTokens toks = .ok (some r)) : isKept r.t = true := by
  unfold parseTokens at h
  split at h
  · obtain ⟨hk, _, _, _, _, _, _, hr⟩ := mkSec_ok_some _ _ _ _ _ _ h
    rw [hr]
    exact hk
  · obtain ⟨hk, _, _, _, _, _, _, hr⟩ := mkSec_ok_some _ _ _ _ _ _ h
    rw [hr]
    exact hk
  · simp at h

theorem parseAll_cons_err (a : List String) (rest : List (List String)) (e : String)
    (h : parseTokens a = .error e) : parseAll (a :: rest) = .error e := by
  simp [parseAll, h]

theorem parseAll_cons_none (a : List String) (rest : List (List String))
    (h : parseTokens a = .ok none) : parseAll (a :: rest) = parseAll rest := by
  simp [parseAll, h]

theorem parseAll_cons_some (a : List String) (rest : List (List String)) (r : SectionRec)
    (h : parseTokens a = .ok (some r)) :
    parseAll (a :: rest) = (parseAll rest).map (fun ls => r :: ls) := by
  simp [parseAll, h]

theorem parseAll_congr (a b : List String) (h : parseTokens a = parseTokens b)
    (pre post : List (List String)) :
    parseAll (pre ++ a :: post) = parseAll (pre ++ b :: post) := by
  induction pre with
  | nil =>
    simp only [List.nil_append]
    cases hb : parseTokens b with
    | error e => rw [parseAll_cons_err _ _ _ (h.trans hb), parseAll_cons_err _ _ _ hb]
    | ok o =>
      cases o with
      | none => rw [parseAll_cons_none _ _ (h.trans hb), parseAll_cons_none _ _ hb]
      | some r => rw [parseAll_cons_some _ _ _ (h.trans hb), parseAll_cons_some _ _ _ hb]
  | cons x xs ih =>
    simp only [List.cons_append]
    cases hx : parseTokens x with
    | error e => rw [parseAll_cons_err _ _ _ hx, parseAll_cons_err _ _ _ hx]
    | ok o =>
      cases o with
      | none => rw [parseAll_cons_none _ _ hx, parseAll_cons_none _ _ hx, ih]
      | some r => rw [parseAll_cons_some _ _ _ hx, parseAll_cons_some _ _ _ hx, ih]

theorem parseAll_kinds (input : List (List String)) (secs : List SectionRec)
    (h : parseAll input = .ok secs) :
    ∀ r ∈ secs, r.t = "TEXT" ∨ r.t = "DATA" ∨ r.t = "BSS" := by
  induction input generalizing secs with
  | nil =>
    unfold parseAll at h
    simp only [Except.ok.injEq] at h
    subst h
    simp
  | cons a rest ih =>
    unfold parseAll at h
    split at h
    · simp at h
    · exact ih _ h
    · rename_i r0 hr0
      cases hrest : parseAll rest with
      | error e => rw [hrest] at h; simp [Except.map] at h
      | ok l =>
        rw [hrest] at h
        simp only [Except.map, Except.ok.injEq] at h
        subst h
        intro r hr
        rcases List.mem_cons.mp hr with rfl | hr
        · exact (isKept_iff _).mp (parseTokens_ok_some _ _ hr0)
        · exact ih _ hrest r hr

/-! Theorems for the parsing claims. -/

/-- Claim C2: for every line in one of the two accepted token layouts, a
record is retained exactly when the kind token is one of the strings "TEXT",
"DATA", "BSS" (exact, case-sensitive match): every record in the parsed
sequence has such a kind; a line with any other kind is silently dropped
(`.ok none`, never an error, whatever its other tokens hold); and a line with
a kept kind whose numeric tokens parse is retained with that kind. -/
theorem claim_C2_kind_filter :
    (∀ input secs, parseAll input = .ok secs →
        ∀ r ∈ secs, r.t = "TEXT" ∨ r.t = "DATA" ∨ r.t = "BSS") ∧
    (∀ i n s v l t, ¬(t = "TEXT" ∨ t = "DATA" ∨ t = "BSS") →
        parseTokens [i, n, s, v, l, t] = .ok none ∧
        parseTokens [i, n, s, v, t] = .ok none) ∧
    (∀ i n s v l t sz vv ll, (t = "TEXT" ∨ t = "DATA" ∨ t = "BSS") →
        pyIntHex s = some sz → pyIntHex v = some vv → pyIntHex l = some ll →
        parseTokens [i, n, s, v, l, t] = .ok (some ⟨n, sz, vv, ll, t⟩) ∧
        parseTokens [i, n, s, v, t] = .ok (some ⟨n, sz, vv, vv, t⟩)) := by
  refine ⟨fun input secs h => parseAll_kinds input secs h, ?_, ?_⟩
  · intro i n s v l t ht
    have hk : isKept t = false := by
      rw [Bool.eq_false_iff]
      intro hkt
      exact ht ((isKept_iff t).mp hkt)
    exact ⟨by rw [parseTokens_six]; exact mkSec_not_kept _ _ _ _ _ hk,
           by rw [parseTokens_five]; exact mkSec_not_kept _ _ _ _ _ hk⟩
  · intro i n s v l t sz vv ll ht hs hv hl
    have hk : isKept t = true := (isKept_iff t).mpr ht
    exact ⟨by rw [parseTokens_six]; exact mkSec_ok_of _ _ _ _ _ _ _ _ hk hs hv hl,
           by rw [parseTokens_five]; exact mkSec_ok_of _ _ _ _ _ _ _ _ hk hs hv hv⟩

/-- Witness for C2 at concrete inputs: the spec's NOTE line is dropped and a
TEXT line is retained. -/
theorem claim_C2_kind_filter_witness :
    parseTokens ["1", ".comment", "00000010", "00000000", "00000000", "NOTE"] = .ok none ∧
    parseTokens ["0", ".text", "00000100", "08000000", "08000000", "TEXT"] =
      .ok (some ⟨".text", 256, 0x08000000, 0x08000000, "TEXT"⟩) :=
  ⟨(claim_C2_kind_filter.2.1 "1" ".comment" "00000010" "00000000" "00000000" "NOTE"
      (by decide)).1,
   (claim_C2_kind_filter.2.2 "0" ".text" "00000100" "08000000" "08000000" "TEXT"
      256 0x08000000 0x08000000 (by decide) (by decide) (by decide) (by decide)).1⟩

/-- Claim C10: the index token is never inspected (the parse result is the
same for any two index tokens), a layout-matching line whose kind is not kept
is skipped before any numeric conversion (`.ok none` for arbitrary, possibly
non-hex, numeric tokens), and concretely a 6-token line with non-hex size but
kind NOTE leaves the run successful with an empty report. -/
theorem claim_C10_lazy_numeric :
    (∀ i i' rest, parseTokens (i :: rest) = parseTokens (i' :: rest)) ∧
    (∀ i n s v l t, ¬(t = "TEXT" ∨ t = "DATA" ∨ t = "BSS") →
        parseTokens [i, n, s, v, l, t] = .ok none ∧
        parseTokens [i, n, s, v, t] = .ok none) ∧
    runLines ["1 .comment zzzz 00000000 00000000 NOTE"] =
      .ok ⟨[], [("FLASH", 0, KB 256), ("FLASH_RO", 0, KB 256), ("RAM", 0, KB 96)]⟩ := by
  refine ⟨?_, ?_, by decide⟩
  · intro i i' rest
    rcases rest with _ | ⟨a, _ | ⟨b, _ | ⟨c, _ | ⟨d, _ | ⟨e, _ | ⟨f, rest⟩⟩⟩⟩⟩⟩ <;> rfl
  · intro i n s v l t ht
    have hk : isKept t = false := by
      rw [Bool.eq_false_iff]
      intro hkt
      exact ht ((isKept_iff t).mp hkt)
    exact ⟨by rw [parseTokens_six]; exact mkSec_not_kept _ _ _ _ _ hk,
           by rw [parseTokens_five]; exact mkSec_not_kept _ _ _ _ _ hk⟩

/-- Witness for C10 at concrete inputs: an arbitrary non-numeric index token
changes nothing, and a bad-hex line with an unkept kind is silently skipped. -/
theorem claim_C10_lazy_numeric_witness :
    parseTokens ["xx", ".a", "zz", "qq", "ww", "NOTE"] =
      parseTokens ["yy", ".a", "zz", "qq", "ww", "NOTE"] ∧
    parseTokens ["xx", ".a", "zz", "qq", "ww", "NOTE"] = .ok none :=
  ⟨claim_C10_lazy_numeric.1 "xx" "yy" [".a", "zz", "qq", "ww", "NOTE"],
   (claim_C10_lazy_numeric.2.1 "xx" ".a" "zz" "qq" "ww" "NOTE" (by decide)).1⟩

/-- Claim C5: a retained record parsed from a 5-token line has
`lma = vma`, and the program's output on any input containing the 5-token
line is identical to its output on the same input with the corresponding
6-token line carrying an explicit lma token equal to the vma token (the
`Output` value determines the printed bytes). -/
theorem claim_C5_five_token_equiv :
    (∀ i n s v t r, parseTokens [i, n, s, v, t] = .ok (some r) → r.lma = r.vma) ∧
    (∀ pre post i n s v t,
        runToks (pre ++ [i, n, s, v, t] :: post) =
          runToks (pre ++ [i, n, s, v, v, t] :: post)) := by
  constructor
  · intro i n s v t r h
    rw [parseTokens_five] at h
    obtain ⟨_, sz, vv, ll, _, hv, hl, hr⟩ := mkSec_ok_some _ _ _ _ _ _ h
    have hvl : vv = ll := Option.some.inj (hv.symm.trans hl)
    subst hvl
    rw [hr]
  · intro pre post i n s v t
    unfold runToks
    rw [parseAll_congr [i, n, s, v, t] [i, n, s, v, v, t] rfl pre post]

/-- Witness for C5 at a concrete input: the 5-token and 6-token forms of a
TEXT line produce the same run output, and the record has equal addresses. -/
theorem claim_C5_five_token_equiv_witness :
    (SectionRec.mk ".text" 256 0x08000000 0x08000000 "TEXT").lma =
      (SectionRec.mk ".text" 256 0x08000000 0x08000000 "TEXT").vma ∧
    runToks ([] ++ ["0", ".text", "00000100", "08000000", "TEXT"] :: []) =
      runToks ([] ++ ["0", ".text", "00000100", "08000000", "08000000", "TEXT"] :: []) :=
  ⟨claim_C5_five_token_equiv.1 "0" ".text" "00000100" "08000000" "TEXT" _ (by decide),
   claim_C5_five_token_equiv.2 [] [] "0" ".text" "00000100" "08000000" "TEXT"⟩

/-- Claim C7 counterexample: Python's `int(_, base=16)` accepts a sign, so the
retained record of the line `0 .x -10 20000000 TEXT` has size -16 < 0, reaches
the summarizer, and even drives RAM's total negative. -/
theorem claim_C7_cex :
    runLines ["0 .x -10 20000000 TEXT"] =
      .ok ⟨[⟨"RAM", "TEXT", ".x", -16, KB 96⟩],
        [("FLASH", 0, KB 256), ("FLASH_RO", 0, KB 256), ("RAM", -16, KB 96)]⟩ ∧
    (-16 : Int) < 0 := by
  exact ⟨by decide, by decide⟩

/-- Claim C7 as amended: a retained record's size is non-negative whenever its
size token does not begin with a minus sign. -/
theorem claim_C7_amended :
    (∀ i n s v l t r, parseTokens [i, n, s, v, l, t] = .ok (some r) →
        s.data.head? ≠ some '-' → 0 ≤ r.size) ∧
    (∀ i n s v t r, parseTokens [i, n, s, v, t] = .ok (some r) →
        s.data.head? ≠ some '-' → 0 ≤ r.size) := by
  constructor
  · intro i n s v l t r h hm
    rw [parseTokens_six] at h
    obtain ⟨_, sz, vv, ll, hs, _, _, hr⟩ := mkSec_ok_some _ _ _ _ _ _ h
    rw [hr]
    exact pyIntHex_nonneg s sz hs hm
  · intro i n s v t r h hm
    rw [parseTokens_five] at h
    obtain ⟨_, sz, vv, ll, hs, _, _, hr⟩ := mkSec_ok_some _ _ _ _ _ _ h
    rw [hr]
    exact pyIntHex_nonneg s sz hs hm

/-- Witness for the amended C7 at a concrete input. -/
theorem claim_C7_amended_witness :
    parseTokens ["0", ".x", "10", "20000000", "TEXT"] =
      .ok (some ⟨".x", 16, 0x20000000, 0x20000000, "TEXT"⟩) ∧
    0 ≤ (SectionRec.mk ".x" 16 0x20000000 0x20000000 "TEXT").size :=
  ⟨by decide,
   claim_C7_amended.2 "0" ".x" "10" "20000000" "TEXT" _ (by decide) (by decide)⟩

/-- Claim C3 counterexample: the spec's own malformed-size line, with kind
NOTE, does not abort the run; the kind filter skips it before any numeric
conversion and a full (empty) report is produced. -/
theorem claim_C3_cex :
    runLines ["1 .comment zzzz 00000000 00000000 NOTE"] ≠ .error "zzzz" ∧
    runLines ["1 .comment zzzz 00000000 00000000 NOTE"] =
      .ok ⟨[], [("FLASH", 0, KB 256), ("FLASH_RO", 0, KB 256), ("RAM", 0, KB 96)]⟩ := by
  exact ⟨by decide, by decide⟩

/-- Claim C3 as amended: for a layout-matching line whose kind is kept and
whose size, vma or lma token is not valid hexadecimal, the run aborts at once
with an error carrying the first unparsable token, and no report is produced
(the result is `.error`, never an `Output`; the script maps this to a
non-zero exit status). -/
theorem claim_C3_amended :
    (∀ i n s v l t rest, (t = "TEXT" ∨ t = "DATA" ∨ t = "BSS") →
        (pyIntHex s = none ∨ pyIntHex v = none ∨ pyIntHex l = none) →
        ∃ tok, runToks ([i, n, s, v, l, t] :: rest) = .error tok ∧
          pyIntHex tok = none ∧ (tok = s ∨ tok = v ∨ tok = l)) ∧
    (∀ i n s v t rest, (t = "TEXT" ∨ t = "DATA" ∨ t = "BSS") →
        (pyIntHex s = none ∨ pyIntHex v = none) →
        ∃ tok, runToks ([i, n, s, v, t] :: rest) = .error tok ∧
          pyIntHex tok = none ∧ (tok = s ∨ tok = v)) := by
  have key : ∀ (n s v l t : String), isKept t = true →
      (pyIntHex s = none ∨ pyIntHex v = none ∨ pyIntHex l = none) →
      ∃ tok, mkSec n s v l t = .error tok ∧ pyIntHex tok = none ∧
        (tok = s ∨ tok = v ∨ tok = l) := by
    intro n s v l t hk hbad
    cases hs : pyIntHex s with
    | none => exact ⟨s, mkSec_err_size _ _ _ _ _ hk hs, hs, Or.inl rfl⟩
    | some sz =>
      cases hv : pyIntHex v with
      | none => exact ⟨v, mkSec_err_vma _ _ _ _ _ _ hk hs hv, hv, Or.inr (Or.inl rfl)⟩
      | some vv =>
        cases hl : pyIntHex l with
        | none => exact ⟨l, mkSec_err_lma _ _ _ _ _ _ _ hk hs hv hl, hl, Or.inr (Or.inr rfl)⟩
        | some ll =>
          rcases hbad with hb | hb | hb
          · rw [hs] at hb; simp at hb
          · rw [hv] at hb; simp at hb
          · rw [hl] at hb; simp at hb
  constructor
  · intro i n s v l t rest ht hbad
    obtain ⟨tok, hmk, hnone, hor⟩ := key n s v l t ((isKept_iff t).mpr ht) hbad
    refine ⟨tok, ?_, hnone, hor⟩
    unfold runToks
    rw [parseAll_cons_err _ _ _ (by rw [parseTokens_six]; exact hmk)]
    rfl
  · intro i n s v t rest ht hbad
    obtain ⟨tok, hmk, hnone, hor⟩ := key n s v v t ((isKept_iff t).mpr ht)
      (by rcases hbad with hb | hb; exacts [Or.inl hb, Or.inr (Or.inl hb)])
    refine ⟨tok, ?_, hnone, ?_⟩
    · unfold runToks
      rw [parseAll_cons_err _ _ _ (by rw [parseTokens_five]; exact hmk)]
      rfl
    · rcases hor with h | h | h
      exacts [Or.inl h, Or.inr h, Or.inr h]

/-- Witness for the amended C3 at the spec's malformed TEXT line. -/
theorem claim_C3_amended_witness :
    ∃ tok, runToks [["2", ".text", "zzzz", "08000000", "08000000", "TEXT"]] = .error tok ∧
      pyIntHex tok = none ∧ (tok = "zzzz" ∨ tok = "08000000" ∨ tok = "08000000") :=
  claim_C3_amended.1 "2" ".text" "zzzz" "08000000" "08000000" "TEXT" [] (by decide) (by decide)

/-! Helper lemmas about classification. -/

theorem classifySection_fst (s : SectionRec) (rs : List (Region × Int)) :
    (classifySection s rs).1 =
      rs.map (fun p => (p.1, p.2 + if matchesRegion p.1 s then s.size else 0)) := by
  induction rs with
  | nil => rfl
  | cons p rest ih =>
    rcases p with ⟨r, u⟩
    by_cases hm : matchesRegion r s
    · simp [classifySection, hm, ih]
    · simp [classifySection, hm, ih]

theorem classifySection_snd (s : SectionRec) (rs : List (Region × Int)) :
    (classifySection s rs).2 =
      ((rs.map Prod.fst).filter (fun r => matchesRegion r s)).map (fun r => mkLine r s) := by
  induction rs with
  | nil => rfl
  | cons p rest ih =>
    rcases p with ⟨r, u⟩
    by_cases hm : matchesRegion r s
    · simp [classifySection, hm, ih, List.filter_cons]
    · simp [classifySection, hm, ih, List.filter_cons]

theorem classifySection_names (s : SectionRec) (rs : List (Region × Int)) :
    (classifySection s rs).1.map Prod.fst = rs.map Prod.fst := by
  rw [classifySection_fst, List.map_map]
  rfl

theorem classifyAll_fst (l : List SectionRec) :
    ∀ rs, (classifyAll l rs).1 = rs.map (fun p => (p.1, p.2 + usedFor l p.1)) := by
  induction l with
  | nil =>
    intro rs
    simp [classifyAll, usedFor]
  | cons s ss ih =>
    intro rs
    simp only [classifyAll]
    rw [ih, classifySection_fst, List.map_map]
    congr 1
    funext p
    simp only [Function.comp, usedFor, List.filter_cons]
    by_cases hm : matchesRegion p.1 s
    · simp [hm, add_assoc]
    · simp [hm]

theorem classifyAll_snd (l : List SectionRec) :
    ∀ rs, rs.map Prod.fst = regions → (classifyAll l rs).2 = l.flatMap linesFor := by
  induction l with
  | nil => intro rs _; rfl
  | cons s ss ih =>
    intro rs hrs
    simp only [classifyAll, List.flatMap_cons]
    rw [classifySection_snd, hrs, ih _ (by rw [classifySection_names, hrs])]
    rfl

theorem usedFor_perm {l1 l2 : List SectionRec} (h : l1.Perm l2) (r : Region) :
    usedFor l1 r = usedFor l2 r :=
  List.Perm.sum_eq ((h.filter _).map _)

theorem summarize_totals (secs : List SectionRec) :
    (summarize secs).totals =
      (classifyAll (sortSections secs) initRegions).1.map
        (fun ru => (ru.1.name, ru.2, ru.1.len)) := rfl

theorem summarize_lines (secs : List SectionRec) :
    (summarize secs).lines = (sortSections secs).flatMap linesFor :=
  classifyAll_snd _ _ rfl

theorem regions_disjoint (r r' : Region) (hr : r ∈ regions) (hr' : r' ∈ regions)
    (hne : r ≠ r') (a : Int) (h : in_region r a = true) : in_region r' a = false := by
  simp only [regions, List.mem_cons, List.not_mem_nil, or_false] at hr hr'
  rcases hr with rfl | rfl | rfl <;> rcases hr' with rfl | rfl | rfl <;>
    first
      | exact absurd rfl hne
      | (simp only [in_region, FLASH, FLASH_RO, RAM, KB, decide_eq_true_eq,
          decide_eq_false_iff_not, not_and, not_lt] at h ⊢; omega)

/-! Theorems for the classification claims. -/

/-- Claim C8: a retained record whose `vma` and `lma` both lie outside every
configured region leaves every region's running total unchanged and emits no
report line, whatever the current totals are — silently, with no error. -/
theorem claim_C8_unmapped (s : SectionRec) (u1 u2 u3 : Int)
    (h : ∀ r ∈ regions, in_region r s.vma = false ∧ in_region r s.lma = false) :
    classifySection s [(FLASH, u1), (FLASH_RO, u2), (RAM, u3)] =
      ([(FLASH, u1), (FLASH_RO, u2), (RAM, u3)], []) := by
  have h1 := h FLASH (by simp [regions])
  have h2 := h FLASH_RO (by simp [regions])
  have h3 := h RAM (by simp [regions])
  simp [classifySection, matchesRegion, h1.1, h1.2, h2.1, h2.2, h3.1, h3.2]

/-- Witness for C8 at a concrete unmapped record (addresses at 0). -/
theorem claim_C8_unmapped_witness :
    classifySection ⟨".dbg", 16, 0, 0, "TEXT"⟩ [(FLASH, 0), (FLASH_RO, 0), (RAM, 0)] =
      ([(FLASH, 0), (FLASH_RO, 0), (RAM, 0)], []) :=
  claim_C8_unmapped _ 0 0 0 (by decide)

/-- Claim C1: a record whose `vma` lies in one configured region and whose
`lma` lies in a different one adds its full size to both regions' totals
(and to no other), and the loop prints exactly two lines, one per matching
region, in configuration order — whatever the current totals are. -/
theorem claim_C1_straddle (s : SectionRec) (u1 u2 u3 : Int) (ra rb : Region)
    (hra : ra ∈ regions) (hrb : rb ∈ regions) (hne : ra ≠ rb)
    (hv : in_region ra s.vma = true) (hl : in_region rb s.lma = true) :
    (classifySection s [(FLASH, u1), (FLASH_RO, u2), (RAM, u3)]).1 =
      [(FLASH, u1 + if FLASH = ra ∨ FLASH = rb then s.size else 0),
       (FLASH_RO, u2 + if FLASH_RO = ra ∨ FLASH_RO = rb then s.size else 0),
       (RAM, u3 + if RAM = ra ∨ RAM = rb then s.size else 0)] ∧
    (classifySection s [(FLASH, u1), (FLASH_RO, u2), (RAM, u3)]).2 =
      (regions.filter (fun r => decide (r = ra ∨ r = rb))).map (fun r => mkLine r s) ∧
    (regions.filter (fun r => decide (r = ra ∨ r = rb))).length = 2 := by
  have hmr : ∀ r ∈ regions, matchesRegion r s = decide (r = ra ∨ r = rb) := by
    intro r hr
    by_cases h1 : r = ra
    · subst h1
      simp [matchesRegion, hv]
    · by_cases h2 : r = rb
      · subst h2
        simp [matchesRegion, hl]
      · have hva : in_region r s.vma = false :=
          regions_disjoint ra r hra hr (fun e => h1 e.symm) s.vma hv
        have hla : in_region r s.lma = false :=
          regions_disjoint rb r hrb hr (fun e => h2 e.symm) s.lma hl
        simp [matchesRegion, hva, hla, h1, h2]
  have e1 := hmr FLASH (by simp [regions])
  have e2 := hmr FLASH_RO (by simp [regions])
  have e3 := hmr RAM (by simp [regions])
  refine ⟨?_, ?_, ?_⟩
  · rw [classifySection_fst]
    simp only [List.map_cons, List.map_nil, e1, e2, e3, decide_eq_true_eq]
  · rw [classifySection_snd]
    have hnames : ([(FLASH, u1), (FLASH_RO, u2), (RAM, u3)].map Prod.fst) = regions := rfl
    rw [hnames, List.filter_congr hmr]
  · simp only [regions, List.mem_cons, List.not_mem_nil, or_false] at hra hrb
    rcases hra with rfl | rfl | rfl <;> rcases hrb with rfl | rfl | rfl <;>
      first
        | exact absurd rfl hne
        | decide

/-- Witness for C1 at the spec's .data scenario record (vma in RAM, lma in
FLASH), with zeroed running totals. -/
theorem claim_C1_straddle_witness :
    (classifySection ⟨".data", 256, 0x20000000, 0x08010000, "DATA"⟩
        [(FLASH, 0), (FLASH_RO, 0), (RAM, 0)]).1 =
      [(FLASH, 0 + if FLASH = RAM ∨ FLASH = FLASH then (256 : Int) else 0),
       (FLASH_RO, 0 + if FLASH_RO = RAM ∨ FLASH_RO = FLASH then (256 : Int) else 0),
       (RAM, 0 + if RAM = RAM ∨ RAM = FLASH then (256 : Int) else 0)] ∧
    (classifySection ⟨".data", 256, 0x20000000, 0x08010000, "DATA"⟩
        [(FLASH, 0), (FLASH_RO, 0), (RAM, 0)]).2 =
      (regions.filter (fun r => decide (r = RAM ∨ r = FLASH))).map
        (fun r => mkLine r ⟨".data", 256, 0x20000000, 0x08010000, "DATA"⟩) ∧
    (regions.filter (fun r => decide (r = RAM ∨ r = FLASH))).length = 2 :=
  claim_C1_straddle ⟨".data", 256, 0x20000000, 0x08010000, "DATA"⟩ 0 0 0 RAM FLASH
    (by decide) (by decide) (by decide) (by decide) (by decide)

/-- Claim C6: the retained records are sorted before classification by `vma`
ascending (the sorted list is a permutation of the parse output, pairwise
ordered by `vma`), stably (a pair in original order with equal `vma` keeps its
order), and the ordering affects only the order of report lines: permuting the
record sequence permutes the report lines and leaves every region's total
unchanged, so two inputs whose parsed records are permutations of each other
report equal totals. -/
theorem claim_C6_sort_and_totals :
    (∀ l : List SectionRec, (sortSections l).Perm l) ∧
    (∀ l : List SectionRec, (sortSections l).Pairwise vmaLE) ∧
    (∀ (l : List SectionRec) (a b : SectionRec),
        List.Sublist [a, b] l → a.vma = b.vma → List.Sublist [a, b] (sortSections l)) ∧
    (∀ l1 l2 : List SectionRec, l1.Perm l2 →
        (summarize l1).totals = (summarize l2).totals ∧
        (summarize l1).lines.Perm (summarize l2).lines) ∧
    (∀ i1 i2 l1 l2, parseAll i1 = .ok l1 → parseAll i2 = .ok l2 → l1.Perm l2 →
        ∃ o1 o2, runToks i1 = .ok o1 ∧ runToks i2 = .ok o2 ∧
          o1.totals = o2.totals ∧ o1.lines.Perm o2.lines) := by
  have hperm : ∀ l : List SectionRec, (sortSections l).Perm l :=
    fun l => List.perm_insertionSort vmaLE l
  have htot : ∀ l1 l2 : List SectionRec, l1.Perm l2 →
      (summarize l1).totals = (summarize l2).totals ∧
      (summarize l1).lines.Perm (summarize l2).lines := by
    intro l1 l2 h
    have hs : (sortSections l1).Perm (sortSections l2) :=
      (hperm l1).trans (h.trans (hperm l2).symm)
    constructor
    · rw [summarize_totals, summarize_totals, classifyAll_fst, classifyAll_fst,
        List.map_map, List.map_map]
      congr 1
      funext p
      simp only [Function.comp]
      rw [usedFor_perm hs]
    · rw [summarize_lines, summarize_lines]
      exact hs.flatMap_right linesFor
  refine ⟨hperm, fun l => List.sorted_insertionSort vmaLE l, ?_, htot, ?_⟩
  · intro l a b hab hvv
    exact List.pair_sublist_insertionSort (le_of_eq hvv) hab
  · intro i1 i2 l1 l2 h1 h2 hp
    refine ⟨summarize l1, summarize l2, ?_, ?_, (htot l1 l2 hp).1, (htot l1 l2 hp).2⟩
    · unfold runToks
      rw [h1]
      rfl
    · unfold runToks
      rw [h2]
      rfl

/-- Witness for C6 at concrete inputs: swapping two records preserves the
totals, and a tie on `vma` keeps the original order through the sort. -/
theorem claim_C6_sort_and_totals_witness :
    (summarize [⟨".data", 256, 0x20000000, 0x08010000, "DATA"⟩,
        ⟨".text", 512, 0x08000000, 0x08000000, "TEXT"⟩]).totals =
      (summarize [⟨".text", 512, 0x08000000, 0x08000000, "TEXT"⟩,
        ⟨".data", 256, 0x20000000, 0x08010000, "DATA"⟩]).totals ∧
    List.Sublist [⟨".a", 1, 5, 5, "TEXT"⟩, ⟨".b", 2, 5, 5, "TEXT"⟩]
      (sortSections [⟨".a", 1, 5, 5, "TEXT"⟩, ⟨".b", 2, 5, 5, "TEXT"⟩]) :=
  ⟨(claim_C6_sort_and_totals.2.2.2.1 _ _
      (List.Perm.swap ⟨".text", 512, 0x08000000, 0x08000000, "TEXT"⟩
        ⟨".data", 256, 0x20000000, 0x08010000, "DATA"⟩ [])).1,
   claim_C6_sort_and_totals.2.2.1 _ _ _ (List.Sublist.refl _) (by decide)⟩

/-- Claim C4 counterexample: on the spec's scenario line the run does produce
the two lines and the +256 totals, but the RAM line's percentage column,
formatted by `:.1f` to ONE decimal place, displays 0.3 (tenths value 3), not
0.26: 100*256/98304 = 0.2604…, and 3/10 ≠ 26/100. -/
theorem claim_C4_cex :
    runLines ["0 .data 00000100 20000000 08010000 DATA"] =
      .ok ⟨[⟨"FLASH", "DATA", ".data", 256, KB 256⟩, ⟨"RAM", "DATA", ".data", 256, KB 96⟩],
        [("FLASH", 256, KB 256), ("FLASH_RO", 0, KB 256), ("RAM", 256, KB 96)]⟩ ∧
    pctTenths 256 (KB 96) = 3 ∧ (3 : ℚ) / 10 ≠ 26 / 100 :=
  ⟨by decide, by decide, by norm_num⟩

/-- Claim C4 as amended: the line `0 .data 00000100 20000000 08010000 DATA`
yields one record with size 256, vma 0x20000000, lma 0x08010000; the run
emits exactly two report lines — FLASH then RAM — each carrying the full
256-byte size, adds 256 to both FLASH's and RAM's totals (FLASH_RO stays 0),
and the displayed figures are 0.1% of FLASH, 0.3% of RAM (not 0.26%, which
one decimal place cannot show), the size column reading 0.2K. -/
theorem claim_C4_amended :
    parseAll [["0", ".data", "00000100", "20000000", "08010000", "DATA"]] =
      .ok [⟨".data", 256, 0x20000000, 0x08010000, "DATA"⟩] ∧
    runLines ["0 .data 00000100 20000000 08010000 DATA"] =
      .ok ⟨[⟨"FLASH", "DATA", ".data", 256, KB 256⟩, ⟨"RAM", "DATA", ".data", 256, KB 96⟩],
        [("FLASH", 256, KB 256), ("FLASH_RO", 0, KB 256), ("RAM", 256, KB 96)]⟩ ∧
    pctTenths 256 (KB 256) = 1 ∧ pctTenths 256 (KB 96) = 3 ∧ kTenths 256 = 2 :=
  ⟨by decide, by decide, by decide, by decide, by decide⟩

/-- Claim C9: the summarizer is deterministic — it is a pure function of its
input, so identical inputs yield identical outputs (and the `Output` value
fixes every printed byte: line order, separator, totals). -/
theorem claim_C9_deterministic :
    ∀ input1 input2 : List String, input1 = input2 → runLines input1 = runLines input2 := by
  intro i1 i2 h
  rw [h]

/-- Witness for C9 at a concrete input. -/
theorem claim_C9_deterministic_witness :
    runLines ["0 .data 00000100 20000000 08010000 DATA"] =
      runLines ["0 .data 00000100 20000000 08010000 DATA"] :=
  claim_C9_deterministic _ _ rfl
